import Mathlib

/-!
Verification development for the TalentTrack REST backend
(workout sessions, rep images, users, social connections).

The JavaScript sources are shallowly embedded: each Express route
handler becomes a pure Lean function from an explicit database state
(lists of documents) to a response together with the successor state.
Remote media uploads (Cloudinary) are modelled by an environment of
functions returning `Except`, since the route code only observes
success (a URL) or failure (an error it catches).  MongoDB collections
are lists of documents scanned in insertion order; `findOne` is
`List.find?`, `deleteMany` is `List.filter`, `updateOne`/`deleteOne`
rewrite or remove the first matching document, and `sort` is
`List.mergeSort` (MongoDB sorts are modelled as stable sorts).
String-valued fields use `String`; character-level operations from the
source (startsWith, regex framing of data URLs) are implemented over
`String.data` so that all definitions evaluate inside the kernel.
-/

namespace TalentTrack

/-- Character-level model of JavaScript `String.prototype.startsWith`. -/
def strStartsWith (s p : String) : Bool :=
  p.data.isPrefixOf s.data

/-- Hexadecimal digit test, as used by the BSON ObjectId hex pattern. -/
def isHexChar (c : Char) : Bool :=
  c.isDigit || ('a' ≤ c && c ≤ 'f') || ('A' ≤ c && c ≤ 'F')

/-- Model of `ObjectId.isValid` from the BSON library used by the routes
(`mongodb` driver): a string is a valid ObjectId when it has length 12,
or length 24 and consists of hex digits.  `new ObjectId(s)` succeeds on
exactly these strings and throws otherwise. -/
def isValidObjectId (s : String) : Bool :=
  s.data.length = 12 || (s.data.length = 24 && s.data.all isHexChar)

/-! ## Data model (MongoDB documents) -/

/-- A document of the `workout_sessions` collection, after ingestion
(`src/routes/sessions.js` POST /add).  `id` is the string form of the
generated `_id`. -/
structure SessionDoc where
  id : String
  athleteName : String
  athleteId : String
  athleteProfilePic : String
  activityName : String
  totalReps : Nat
  accuracy : Nat
  formScore : String
  timestamp : Nat
  pdfUrl : Option String
  videoUrl : Option String
deriving DecidableEq, Repr

/-- A document of the `rep_images` collection. -/
structure RepDoc where
  repNumber : Nat
  imageUrl : String
  correct : Bool
  sessionId : String
deriving DecidableEq, Repr

/-- A document of the `connections` collection
(`src/routes/connections.js`). -/
structure Connection where
  id : String
  fromUserId : String
  toUserId : String
  status : String
  acceptedAt : Option Nat := none
  rejectedAt : Option Nat := none
deriving DecidableEq, Repr

/-- A document of the `users` collection (`src/routes/auth.js`). -/
structure User where
  userId : String
  name : String
  email : String
  password : String
  phone : String
  role : String
  profilePic : String
deriving DecidableEq, Repr

/-- The database state: the four collections touched by the verified
routes, each a list of documents in insertion order. -/
structure DB where
  sessions : List SessionDoc := []
  reps : List RepDoc := []
  connections : List Connection := []
  users : List User := []
deriving DecidableEq, Repr

/-- Remote media host (Cloudinary): each uploader either returns a
durable URL or fails with a transport error message.  The route code
never inspects anything beyond success/failure and the URL. -/
structure MediaEnv where
  remotePDF : String → Except String String
  remoteVideo : String → Except String String
  remoteImage : String → Except String String

/-! ## src/utils/cloudinary.js -/

/-- The MIME-framing normalization block of `uploadPDF`
(`src/utils/cloudinary.js`, first variant, lines 48-59):
if the payload does not start with `data:application/pdf`, a payload
starting with `data:` goes through
`replace(/^data:[^;]+/, 'data:application/pdf')` (which rewrites only
when at least one non-semicolon character follows `data:`), and any
other payload is wrapped as `data:application/pdf;base64,<payload>`. -/
def normalizePDFData (s : String) : String :=
  if strStartsWith s "data:application/pdf" then s
  else if strStartsWith s "data:" then
    let rest := s.data.drop 5
    let mime := rest.takeWhile (fun c => c ≠ ';')
    if mime.isEmpty then s
    else "data:application/pdf" ++ String.mk (rest.dropWhile (fun c => c ≠ ';'))
  else "data:application/pdf;base64," ++ s

/-- The specification's description of `uploadPDF` normalization,
written from the spec text for comparison with `normalizePDFData`:
an input already starting with `data:application/pdf` passes through;
any other input starting with `data:` has its generic data prefix
(`data:` plus the MIME part up to the first semicolon) rewritten to
`data:application/pdf`, keeping the remainder; any other input is
wrapped as `data:application/pdf;base64,` plus the input. -/
def specNormalizePDF (s : String) : String :=
  if strStartsWith s "data:application/pdf" then s
  else if strStartsWith s "data:" then
    "data:application/pdf" ++ String.mk ((s.data.drop 5).dropWhile (fun c => c ≠ ';'))
  else "data:application/pdf;base64," ++ s

/-- `uploadPDF` (`src/utils/cloudinary.js` 48-81): normalizes the MIME
framing, then uploads; errors from the remote host propagate to the
caller (re-thrown after logging). -/
def uploadPDF (env : MediaEnv) (data : String) : Except String String :=
  env.remotePDF (normalizePDFData data)

/-- `uploadVideo`: direct upload, no normalization. -/
def uploadVideo (env : MediaEnv) (data : String) : Except String String :=
  env.remoteVideo data

/-- `uploadImage`: direct upload, no normalization. -/
def uploadImage (env : MediaEnv) (data : String) : Except String String :=
  env.remoteImage data

/-! ## src/routes/sessions.js -/

/-- The `sessionMeta` part of a POST /api/sessions/add request body.
Inline payloads (`pdfDataUrl`, `videoDataUrl`) are optional; JavaScript
truthiness makes an empty string behave like an absent payload. -/
structure SessionMeta where
  athleteName : String
  athleteId : String
  athleteProfilePic : String
  activityName : String
  totalReps : Nat
  accuracy : Nat
  formScore : String
  timestamp : Nat
  pdfDataUrl : Option String
  videoDataUrl : Option String
deriving DecidableEq, Repr

/-- One element of the `repImages` array of a POST /add request. -/
structure RepInput where
  repNumber : Nat
  imageData : String
  correct : Bool
deriving DecidableEq, Repr

/-- Response of POST /api/sessions/add. -/
structure AddResponse where
  status : Nat
  success : Bool
  sessionId : String
  pdfUrl : Option String
  videoUrl : Option String
deriving DecidableEq, Repr

/-- `insertMany` on `rep_images` with `ordered: false` under the unique
secondary index on `(sessionId, repNumber)` (created in the production
`connectDB`): each document is inserted in order unless a document with
the same key is already present, in which case that document is
skipped; the duplicate-key error is swallowed by the route (code
11000 branch). -/
def insertManyRepsUnordered (coll : List RepDoc) (docs : List RepDoc) : List RepDoc :=
  docs.foldl
    (fun acc d =>
      if acc.any (fun r => r.sessionId = d.sessionId ∧ r.repNumber = d.repNumber) then acc
      else acc ++ [d])
    coll

/-- The rep-image mapper of POST /add (`src/routes/sessions.js` 66-93):
upload the screenshot (falling back to the inline image data on
failure) and attach the generated session id as foreign key. -/
def mkRepDocFor (env : MediaEnv) (newId : String) (rep : RepInput) : RepDoc :=
  { repNumber := rep.repNumber,
    imageUrl :=
      match uploadImage env rep.imageData with
      | .ok url => url
      | .error _ => rep.imageData,
    correct := rep.correct,
    sessionId := newId }

/-- POST /api/sessions/add (`src/routes/sessions.js` 8-125).
`newId` is the `_id` generated by `insertOne` for the session document.
PDF and video payloads are uploaded first; a failed upload falls back
to storing the inline payload verbatim.  Rep images are uploaded (with
per-rep fallback), existing reps under the same session id are removed,
and the batch is bulk-inserted with duplicate keys skipped. -/
def ingest (env : MediaEnv) (db : DB) (newId : String)
    (meta : SessionMeta) (repImages : List RepInput) : AddResponse × DB :=
  let pdfUrl : Option String :=
    match meta.pdfDataUrl with
    | none => none
    | some d =>
      if d = "" then none
      else
        match uploadPDF env d with
        | .ok url => some url
        | .error _ => some d
  let videoUrl : Option String :=
    match meta.videoDataUrl with
    | none => none
    | some d =>
      if d = "" then none
      else
        match uploadVideo env d with
        | .ok url => some url
        | .error _ => some d
  let sessionDoc : SessionDoc :=
    { id := newId, athleteName := meta.athleteName, athleteId := meta.athleteId,
      athleteProfilePic := meta.athleteProfilePic, activityName := meta.activityName,
      totalReps := meta.totalReps, accuracy := meta.accuracy,
      formScore := meta.formScore, timestamp := meta.timestamp,
      pdfUrl := pdfUrl, videoUrl := videoUrl }
  let db1 : DB := { db with sessions := db.sessions ++ [sessionDoc] }
  let db2 : DB :=
    if repImages.isEmpty then db1
    else
      let cleaned := db1.reps.filter (fun r => r.sessionId ≠ newId)
      let repsWithUrls := repImages.map (mkRepDocFor env newId)
      { db1 with reps := insertManyRepsUnordered cleaned repsWithUrls }
  ({ status := 200, success := true, sessionId := newId,
     pdfUrl := pdfUrl, videoUrl := videoUrl }, db2)

/-- Comparison used by `.sort({ repNumber: 1 })`. -/
def repNumberLe (a b : RepDoc) : Bool :=
  a.repNumber ≤ b.repNumber

/-- GET /api/sessions/:sessionId/reps (`src/routes/sessions.js`
233-261): rep images with the given session id, ascending by
`repNumber`. -/
def repsForSession (db : DB) (sessionId : String) : List RepDoc :=
  (db.reps.filter (fun r => r.sessionId = sessionId)).mergeSort repNumberLe

/-- Response of DELETE /api/sessions/:sessionId. -/
structure DeleteResponse where
  status : Nat
  success : Bool
  error : Option String := none
  deletedRepImages : Option Nat := none
deriving DecidableEq, Repr

/-- `deleteOne({ _id })` on `workout_sessions`: removes the first
document with the given id, returning the remaining list and
`deletedCount`. -/
def deleteOneSessionById : List SessionDoc → String → List SessionDoc × Nat
  | [], _ => ([], 0)
  | s :: rest, sid =>
    if s.id = sid then (rest, 1)
    else
      let r := deleteOneSessionById rest sid
      (s :: r.1, r.2)

/-- DELETE /api/sessions/:sessionId (`src/routes/sessions.js` 264-313):
validate the id with `ObjectId.isValid`, then `deleteMany` the rep
images with that session id, then `deleteOne` the session; a missing
session yields 404 after the reps were already removed. -/
def deleteSession (db : DB) (sessionId : String) : DeleteResponse × DB :=
  if isValidObjectId sessionId = false then
    ({ status := 400, success := false, error := some "Invalid session ID" }, db)
  else
    let remaining := db.reps.filter (fun r => r.sessionId ≠ sessionId)
    let deletedReps := db.reps.countP (fun r => r.sessionId = sessionId)
    let db1 : DB := { db with reps := remaining }
    let del := deleteOneSessionById db1.sessions sessionId
    if del.2 = 0 then
      ({ status := 404, success := false, error := some "Workout session not found" }, db1)
    else
      ({ status := 200, success := true, deletedRepImages := some deletedReps },
       { db1 with sessions := del.1 })

/-- One element of the GET /api/sessions/all-athletes response:
the `$group`/`$project` output for one athlete. -/
structure AthleteGroup where
  name : String
  workoutCount : Nat
  lastWorkout : Nat
  athleteProfilePic : String
deriving DecidableEq, Repr

/-- The `$group` accumulator update for one more session of an
existing group: `$sum: 1` increments the count, `$max` keeps the larger
timestamp, `$first` keeps the stored picture. -/
def bumpGroup (g : AthleteGroup) (s : SessionDoc) : AthleteGroup :=
  { g with workoutCount := g.workoutCount + 1,
           lastWorkout := max g.lastWorkout s.timestamp }

/-- One step of the `$group` stage keyed on `$athleteName`
(`src/routes/sessions.js` 191-212): scanning the collection in order,
a session either updates the accumulators of its athlete's group
or opens a new group. -/
def addSessionToGroups : List AthleteGroup → SessionDoc → List AthleteGroup
  | [], s => [{ name := s.athleteName, workoutCount := 1,
                lastWorkout := s.timestamp, athleteProfilePic := s.athleteProfilePic }]
  | g :: gs, s =>
    if g.name = s.athleteName then bumpGroup g s :: gs
    else g :: addSessionToGroups gs s

/-- Comparison used by `$sort: { lastWorkout: -1 }` (descending). -/
def groupLe (a b : AthleteGroup) : Bool :=
  b.lastWorkout ≤ a.lastWorkout

/-- GET /api/sessions/all-athletes: group all sessions by athlete name
and sort the groups by most recent workout, descending. -/
def listAthletes (db : DB) : List AthleteGroup :=
  (db.sessions.foldl addSessionToGroups []).mergeSort groupLe

/-! ## src/routes/connections.js -/

/-- The `$or` filter used by `findOne` in the request/status handlers:
a connection between the two users, in either direction. -/
def connMatches (u1 u2 : String) (c : Connection) : Bool :=
  (c.fromUserId = u1 ∧ c.toUserId = u2) ∨ (c.fromUserId = u2 ∧ c.toUserId = u1)

/-- Response shape shared by the connection POST handlers. -/
structure ConnResponse where
  status : Nat
  success : Bool
  message : Option String := none
  error : Option String := none
deriving DecidableEq, Repr

/-- POST /api/connections/request (`src/routes/connections.js`
103-136): refuse when any connection already exists between the pair
(either direction, any status); otherwise insert a pending connection.
`newId` is the `_id` generated by `insertOne`. -/
def sendRequest (db : DB) (fromUserId toUserId newId : String) :
    ConnResponse × DB :=
  match db.connections.find? (connMatches fromUserId toUserId) with
  | some _ =>
    ({ status := 400, success := false,
       error := some "Connection request already exists" }, db)
  | none =>
    let request : Connection :=
      { id := newId, fromUserId := fromUserId, toUserId := toUserId,
        status := "pending", acceptedAt := none, rejectedAt := none }
    ({ status := 200, success := true,
       message := some "Connection request sent" },
     { db with connections := db.connections ++ [request] })

/-- `updateOne({ _id })` on `connections`: rewrite the first document
with the given id (matching zero documents is not an error). -/
def updateConnectionById (l : List Connection) (rid : String)
    (f : Connection → Connection) : List Connection :=
  match l with
  | [] => []
  | c :: rest =>
    if c.id = rid then f c :: rest
    else c :: updateConnectionById rest rid f

/-- POST /api/connections/request/:requestId/accept
(`src/routes/connections.js` 139-159): `new ObjectId(requestId)` throws
on a malformed id (caught as a 500); otherwise the first matching
connection, if any, gets status `accepted` plus `acceptedAt`, and the
response is success regardless of whether anything matched. -/
def acceptRequest (db : DB) (requestId : String) (now : Nat) : ConnResponse × DB :=
  if isValidObjectId requestId = false then
    ({ status := 500, success := false, error := some "Failed to accept request" }, db)
  else
    let updated := updateConnectionById db.connections requestId
      (fun c => { c with status := "accepted", acceptedAt := some now })
    ({ status := 200, success := true, message := some "Connection accepted" },
     { db with connections := updated })

/-- POST /api/connections/request/:requestId/reject
(`src/routes/connections.js` 162-182): same shape as accept, with
status `rejected` and `rejectedAt`. -/
def rejectRequest (db : DB) (requestId : String) (now : Nat) : ConnResponse × DB :=
  if isValidObjectId requestId = false then
    ({ status := 500, success := false, error := some "Failed to reject request" }, db)
  else
    let updated := updateConnectionById db.connections requestId
      (fun c => { c with status := "rejected", rejectedAt := some now })
    ({ status := 200, success := true, message := some "Connection rejected" },
     { db with connections := updated })

/-- Response of GET /api/connections/status/:userId1/:userId2. -/
structure StatusResponse where
  connected : Bool
  status : String
  requestId : Option String
deriving DecidableEq, Repr

/-- GET /api/connections/status/:userId1/:userId2
(`src/routes/connections.js` 185-206): `findOne` a connection between
the pair; `connected` is whether its status is `accepted`
(`undefined === 'accepted'` is false), and `status` is
`connection?.status || 'none'` (JavaScript falsiness turns an absent
document, or an empty stored status, into `"none"`). -/
def connectionStatus (db : DB) (u1 u2 : String) : StatusResponse :=
  match db.connections.find? (connMatches u1 u2) with
  | none => { connected := false, status := "none", requestId := none }
  | some c =>
    { connected := c.status = "accepted",
      status := if c.status = "" then "none" else c.status,
      requestId := some c.id }

/-! ## src/routes/auth.js -/

/-- Response of POST /api/auth/signup. -/
structure SignupResponse where
  status : Nat
  success : Bool
  error : Option String := none
  userId : Option String := none
deriving DecidableEq, Repr

/-- POST /api/auth/signup (`src/routes/auth.js` 8-87): require
name/email/password/role (JavaScript falsiness: empty strings fail the
check), refuse a duplicate email with 409, upload a `data:image`
profile picture (falling back to the inline payload on failure), and
insert the new user.  `newUserId` is the generated
`<role>_<random-hex>` identifier. -/
def signup (env : MediaEnv) (db : DB)
    (name email password phone role profilePic newUserId : String) :
    SignupResponse × DB :=
  if name = "" ∨ email = "" ∨ password = "" ∨ role = "" then
    ({ status := 400, success := false,
       error := some "Name, email, password, and role are required" }, db)
  else
    match db.users.find? (fun u => u.email = email) with
    | some _ =>
      ({ status := 409, success := false,
         error := some "User with this email already exists" }, db)
    | none =>
      let profilePicUrl :=
        if profilePic ≠ "" ∧ strStartsWith profilePic "data:image" then
          match uploadImage env profilePic with
          | .ok url => url
          | .error _ => profilePic
        else profilePic
      let newUser : User :=
        { userId := newUserId, name := name, email := email, password := password,
          phone := phone, role := role, profilePic := profilePicUrl }
      ({ status := 201, success := true, userId := some newUserId },
       { db with users := db.users ++ [newUser] })

/-! ## GET /api/users/:userId/stats (users route) -/

/-- Model of the JavaScript expression `Math.round(num / den)` for
natural `num` and positive `den`: `Math.round(x) = ⌊x + 1/2⌋`, and for
rationals `⌊num/den + 1/2⌋ = (2*num + den) / (2*den)` under integer
division (proved below as `mathRoundDiv_eq_floor`). -/
def mathRoundDiv (num den : Nat) : Nat :=
  (2 * num + den) / (2 * den)

/-- Response of GET /api/users/:userId/stats. -/
structure UserStats where
  totalWorkouts : Nat
  bestScore : Nat
  avgAccuracy : Nat
  formQuality : Nat
  consistency : Nat
deriving DecidableEq, Repr

/-- GET /api/users/:userId/stats (users route, lines 325-349): over the
sessions whose `athleteId` matches, compute the count, the best
`totalReps` (`Math.max(..., 0)` as a fold with base 0), the rounded mean
accuracy, the rounded percentage of sessions with `formScore ===
'Excellent'` (`count / total * 100`, exact over the rationals as
`100*count / total`), and the consistency heuristic. -/
def statsForUser (db : DB) (userId : String) : UserStats :=
  let sessions := db.sessions.filter (fun s => s.athleteId = userId)
  { totalWorkouts := sessions.length,
    bestScore := (sessions.map (fun s => s.totalReps)).foldl max 0,
    avgAccuracy :=
      if 0 < sessions.length then
        mathRoundDiv (sessions.foldl (fun sum s => sum + s.accuracy) 0) sessions.length
      else 0,
    formQuality :=
      if 0 < sessions.length then
        mathRoundDiv (100 * (sessions.filter (fun s => s.formScore = "Excellent")).length)
          sessions.length
      else 0,
    consistency := if 5 ≤ sessions.length then 85 else sessions.length * 15 }

/-! ## Shared invariants and concrete states used by witnesses -/

/-- The data-model invariant of §3: at most one Connection document per
unordered pair of users (either direction). -/
def atMostOnePerPair (conns : List Connection) : Prop :=
  ∀ u1 u2 : String, (conns.filter (connMatches u1 u2)).length ≤ 1

/-- A media host on which every upload fails. -/
def envAllFail : MediaEnv :=
  { remotePDF := fun _ => .error "upload failed",
    remoteVideo := fun _ => .error "upload failed",
    remoteImage := fun _ => .error "upload failed" }

/-- A media host on which every upload succeeds with a fixed URL. -/
def envAllOk : MediaEnv :=
  { remotePDF := fun _ => .ok "https://res.example/reports/a.pdf",
    remoteVideo := fun _ => .ok "https://res.example/videos/a.webm",
    remoteImage := fun _ => .ok "https://res.example/screenshots/a.jpg" }

/-- The empty database. -/
def dbEmpty : DB := {}

/-- A sample ingestion request carrying an inline PDF payload. -/
def metaSample : SessionMeta :=
  { athleteName := "Asha", athleteId := "athlete_1", athleteProfilePic := "pic1",
    activityName := "Squats", totalReps := 10, accuracy := 90,
    formScore := "Excellent", timestamp := 1700000000,
    pdfDataUrl := some "JVBERi0xLjQ=", videoDataUrl := none }

/-- Sample rep images with pairwise distinct rep numbers, out of order. -/
def repsSample : List RepInput :=
  [{ repNumber := 2, imageData := "img2", correct := true },
   { repNumber := 1, imageData := "img1", correct := false },
   { repNumber := 3, imageData := "img3", correct := true }]

/-! ## Shared list lemmas -/

/-- A list of length at most one has all its members equal. -/
theorem eq_of_mem_of_length_le_one {α : Type} {l : List α} (h : l.length ≤ 1)
    {a b : α} (ha : a ∈ l) (hb : b ∈ l) : a = b := by
  match l with
  | [] => cases ha
  | [x] =>
    simp only [List.mem_singleton] at ha hb
    rw [ha, hb]
  | x :: y :: rest => simp at h

/-- The pair filter is symmetric in the two users. -/
theorem connMatches_symm (u1 u2 : String) (c : Connection) :
    connMatches u1 u2 c = connMatches u2 u1 c := by
  simp only [connMatches, decide_eq_decide]
  tauto

/-- `updateOne` that matches nothing leaves the collection unchanged. -/
theorem updateConnectionById_no_match (l : List Connection) (rid : String)
    (f : Connection → Connection) (h : ∀ c ∈ l, c.id ≠ rid) :
    updateConnectionById l rid f = l := by
  induction l with
  | nil => rfl
  | cons c rest ih =>
    have hc : c.id ≠ rid := h c (List.mem_cons_self c rest)
    simp only [updateConnectionById, if_neg hc]
    rw [ih (fun x hx => h x (List.mem_cons_of_mem c hx))]

/-! ## C1: PDF upload failure falls back to the inline payload -/

/-- C1. For every ingestion request with an inline PDF payload whose
Media Uploader call fails, the ingest still returns 200 with
`success: true`, the returned `pdfUrl` is the original inline payload
verbatim, and the stored session document holds the same payload as its
`pdfUrl`; the media failure alone never fails the operation. -/
theorem ingest_pdf_fallback (env : MediaEnv) (db : DB) (newId : String)
    (meta : SessionMeta) (repImages : List RepInput) (d e : String)
    (hd : meta.pdfDataUrl = some d) (hne : d ≠ "")
    (hfail : env.remotePDF (normalizePDFData d) = .error e) :
    (ingest env db newId meta repImages).1.status = 200 ∧
    (ingest env db newId meta repImages).1.success = true ∧
    (ingest env db newId meta repImages).1.pdfUrl = some d ∧
    ∃ s ∈ (ingest env db newId meta repImages).2.sessions,
      s.id = newId ∧ s.pdfUrl = some d := by
  unfold ingest
  rw [hd]
  simp only [uploadPDF, hfail, if_neg hne]
  refine ⟨by trivial, by trivial, by trivial, ?_⟩
  split
  case isTrue =>
    refine ⟨_, List.mem_append_right _ (List.mem_singleton_self _), rfl, rfl⟩
  case isFalse =>
    refine ⟨_, List.mem_append_right _ (List.mem_singleton_self _), rfl, rfl⟩

/-- C1 witness: a concrete ingest against a failing media host. -/
theorem ingest_pdf_fallback_witness :
    (ingest envAllFail dbEmpty "65a1b2c3d4e5f60718293a4b" metaSample repsSample).1.status = 200 ∧
    (ingest envAllFail dbEmpty "65a1b2c3d4e5f60718293a4b" metaSample repsSample).1.success = true ∧
    (ingest envAllFail dbEmpty "65a1b2c3d4e5f60718293a4b" metaSample repsSample).1.pdfUrl =
      some "JVBERi0xLjQ=" ∧
    ∃ s ∈ (ingest envAllFail dbEmpty "65a1b2c3d4e5f60718293a4b" metaSample repsSample).2.sessions,
      s.id = "65a1b2c3d4e5f60718293a4b" ∧ s.pdfUrl = some "JVBERi0xLjQ=" :=
  ingest_pdf_fallback envAllFail dbEmpty "65a1b2c3d4e5f60718293a4b" metaSample repsSample
    "JVBERi0xLjQ=" "upload failed" rfl (by decide) rfl

/-! ## C9: uploadPDF MIME-framing normalization -/

/-- C9 counterexample: on the input `data:` the code leaves the payload
unchanged (the regex `^data:[^;]+` requires at least one character
after `data:`), while the claimed normalization would rewrite it to
`data:application/pdf`. -/
theorem normalizePDF_counterexample :
    normalizePDFData "data:" = "data:" ∧
    specNormalizePDF "data:" = "data:application/pdf" ∧
    normalizePDFData "data:" ≠ specNormalizePDF "data:" := by
  refine ⟨by decide, by decide, by decide⟩

/-- C9 amended. `uploadPDF` normalization: an input starting with
`data:application/pdf` passes through unchanged; an input starting with
`data:` followed by at least one non-semicolon character has the run
`data:<mime>` rewritten to `data:application/pdf`, keeping the
remainder from the first semicolon on; an input starting with `data:`
followed immediately by a semicolon or the end of the string is passed
through unchanged (the rewrite does not fire); any input not starting
with `data:` is wrapped as `data:application/pdf;base64,` plus the
original string. -/
theorem normalizePDF_spec (s : String) :
    (strStartsWith s "data:application/pdf" = true → normalizePDFData s = s) ∧
    (strStartsWith s "data:application/pdf" = false →
      strStartsWith s "data:" = true →
      ((s.data.drop 5).takeWhile (fun c => c ≠ ';')).isEmpty = false →
      normalizePDFData s =
        "data:application/pdf" ++ String.mk ((s.data.drop 5).dropWhile (fun c => c ≠ ';'))) ∧
    (strStartsWith s "data:application/pdf" = false →
      strStartsWith s "data:" = true →
      ((s.data.drop 5).takeWhile (fun c => c ≠ ';')).isEmpty = true →
      normalizePDFData s = s) ∧
    (strStartsWith s "data:application/pdf" = false →
      strStartsWith s "data:" = false →
      normalizePDFData s = "data:application/pdf;base64," ++ s) := by
  refine ⟨?_, ?_, ?_, ?_⟩
  · intro h1
    simp only [normalizePDFData, h1, if_true]
  · intro h1 h2 h3
    simp only [normalizePDFData, h1, h2, h3, Bool.false_eq_true, if_false, if_true]
  · intro h1 h2 h3
    simp only [normalizePDFData, h1, h2, h3, Bool.false_eq_true, if_false, if_true]
  · intro h1 h2
    simp only [normalizePDFData, h1, h2, Bool.false_eq_true, if_false]

/-- C9 witness: a generic image data URL is reframed as a PDF data URL
with the `;base64,...` remainder kept. -/
theorem normalizePDF_spec_witness :
    normalizePDFData "data:image/png;base64,AA" = "data:application/pdf;base64,AA" := by
  have h := (normalizePDF_spec "data:image/png;base64,AA").2.1 (by decide) (by decide) (by decide)
  rw [h]
  decide

/-! ## C10: accept/reject on a missing request id -/

/-- C10 counterexample: a malformed request id (here `zzz`) matches no
Connection document, yet `accept` responds with a 500 failure rather
than `success: true`, because `new ObjectId('zzz')` throws. -/
theorem acceptRequest_counterexample :
    (∀ c ∈ dbEmpty.connections, c.id ≠ "zzz") ∧
    (acceptRequest dbEmpty "zzz" 0).1.success = false ∧
    (acceptRequest dbEmpty "zzz" 0).1.status = 500 := by
  refine ⟨by decide, by decide, by decide⟩

/-- C10 amended. For every well-formed request id that matches no
Connection document, `accept` and `reject` still respond with
`success: true` and their usual success message, the connections state
is unchanged, and neither operation ever produces a not-found
response. -/
theorem acceptReject_missing_request_spec (db : DB) (rid : String) (now : Nat)
    (hvalid : isValidObjectId rid = true)
    (hmiss : ∀ c ∈ db.connections, c.id ≠ rid) :
    (acceptRequest db rid now).1.status = 200 ∧
    (acceptRequest db rid now).1.success = true ∧
    (acceptRequest db rid now).1.message = some "Connection accepted" ∧
    (acceptRequest db rid now).2 = db ∧
    (rejectRequest db rid now).1.status = 200 ∧
    (rejectRequest db rid now).1.success = true ∧
    (rejectRequest db rid now).1.message = some "Connection rejected" ∧
    (rejectRequest db rid now).2 = db ∧
    (∀ (db2 : DB) (r2 : String) (n2 : Nat),
      (acceptRequest db2 r2 n2).1.status ≠ 404 ∧
      (rejectRequest db2 r2 n2).1.status ≠ 404) := by
  have hup1 := updateConnectionById_no_match db.connections rid
    (fun c => { c with status := "accepted", acceptedAt := some now }) hmiss
  have hup2 := updateConnectionById_no_match db.connections rid
    (fun c => { c with status := "rejected", rejectedAt := some now }) hmiss
  refine ⟨?_, ?_, ?_, ?_, ?_, ?_, ?_, ?_, ?_⟩
  · simp [acceptRequest, hvalid]
  · simp [acceptRequest, hvalid]
  · simp [acceptRequest, hvalid]
  · simp [acceptRequest, hvalid, hup1]
  · simp [rejectRequest, hvalid]
  · simp [rejectRequest, hvalid]
  · simp [rejectRequest, hvalid]
  · simp [rejectRequest, hvalid, hup2]
  · intro db2 r2 n2
    constructor
    · unfold acceptRequest
      split <;> simp
    · unfold rejectRequest
      split <;> simp

/-- C10 witness: a well-formed but unused ObjectId against the empty
state. -/
theorem acceptReject_missing_request_witness :
    (acceptRequest dbEmpty "0123456789abcdef01234567" 5).1.status = 200 ∧
    (acceptRequest dbEmpty "0123456789abcdef01234567" 5).1.success = true ∧
    (acceptRequest dbEmpty "0123456789abcdef01234567" 5).1.message =
      some "Connection accepted" ∧
    (acceptRequest dbEmpty "0123456789abcdef01234567" 5).2 = dbEmpty ∧
    (rejectRequest dbEmpty "0123456789abcdef01234567" 5).1.status = 200 ∧
    (rejectRequest dbEmpty "0123456789abcdef01234567" 5).1.success = true ∧
    (rejectRequest dbEmpty "0123456789abcdef01234567" 5).1.message =
      some "Connection rejected" ∧
    (rejectRequest dbEmpty "0123456789abcdef01234567" 5).2 = dbEmpty ∧
    (∀ (db2 : DB) (r2 : String) (n2 : Nat),
      (acceptRequest db2 r2 n2).1.status ≠ 404 ∧
      (rejectRequest db2 r2 n2).1.status ≠ 404) :=
  acceptReject_missing_request_spec dbEmpty "0123456789abcdef01234567" 5
    (by decide) (by decide)

/-! ## C6: duplicate signup is a conflict and changes nothing -/

/-- A signup against a state already holding a user with the requested
email fails with 409 and leaves the state untouched. -/
theorem signup_conflict (env : MediaEnv) (db : DB) (n e p ph r pic uid : String)
    (hn : n ≠ "") (he : e ≠ "") (hp : p ≠ "") (hr : r ≠ "")
    (hmem : ∃ u ∈ db.users, u.email = e) :
    (signup env db n e p ph r pic uid).1.status = 409 ∧
    (signup env db n e p ph r pic uid).2 = db := by
  have hv : ¬(n = "" ∨ e = "" ∨ p = "" ∨ r = "") := by
    push_neg
    exact ⟨hn, he, hp, hr⟩
  obtain ⟨u, hu_mem, hu_email⟩ := hmem
  cases hf : db.users.find? (fun u => u.email = e) with
  | none =>
    exact absurd (decide_eq_true hu_email) (List.find?_eq_none.mp hf u hu_mem)
  | some u2 =>
    constructor
    · simp only [signup, if_neg hv, hf]
    · simp only [signup, if_neg hv, hf]

/-- C6. If a first signup with email `e` succeeded (201), a second
well-formed signup with the same email fails with 409 and leaves the
database — in particular the first account — exactly as the first call
left it: no field is modified and no second account is inserted. -/
theorem signup_duplicate_email (env1 env2 : MediaEnv) (db : DB)
    (n1 e p1 ph1 r1 pic1 id1 n2 p2 ph2 r2 pic2 id2 : String)
    (h1 : (signup env1 db n1 e p1 ph1 r1 pic1 id1).1.status = 201)
    (hn2 : n2 ≠ "") (hp2 : p2 ≠ "") (hr2 : r2 ≠ "") :
    (signup env2 (signup env1 db n1 e p1 ph1 r1 pic1 id1).2
        n2 e p2 ph2 r2 pic2 id2).1.status = 409 ∧
    (signup env2 (signup env1 db n1 e p1 ph1 r1 pic1 id1).2
        n2 e p2 ph2 r2 pic2 id2).2 =
      (signup env1 db n1 e p1 ph1 r1 pic1 id1).2 := by
  by_cases hv : n1 = "" ∨ e = "" ∨ p1 = "" ∨ r1 = ""
  · exfalso
    simp only [signup, if_pos hv] at h1
    exact absurd h1 (by decide)
  · have he : e ≠ "" := fun h => hv (Or.inr (Or.inl h))
    have hmem : ∃ u ∈ (signup env1 db n1 e p1 ph1 r1 pic1 id1).2.users, u.email = e := by
      cases hf : db.users.find? (fun u => u.email = e) with
      | some u =>
        exfalso
        simp only [signup, if_neg hv, hf] at h1
        exact absurd h1 (by decide)
      | none =>
        simp only [signup, if_neg hv, hf]
        exact ⟨_, List.mem_append_right _ (List.mem_singleton_self _), rfl⟩
    exact signup_conflict env2 (signup env1 db n1 e p1 ph1 r1 pic1 id1).2
      n2 e p2 ph2 r2 pic2 id2 hn2 he hp2 hr2 hmem

/-- C6 witness: two concrete signups with the same email. -/
theorem signup_duplicate_email_witness :
    (signup envAllOk (signup envAllOk dbEmpty
        "Asha" "asha@example.com" "pw1" "123" "ATHLETE" "" "athlete_aa11").2
        "Bela" "asha@example.com" "pw2" "456" "COACH" "" "coach_bb22").1.status = 409 ∧
    (signup envAllOk (signup envAllOk dbEmpty
        "Asha" "asha@example.com" "pw1" "123" "ATHLETE" "" "athlete_aa11").2
        "Bela" "asha@example.com" "pw2" "456" "COACH" "" "coach_bb22").2 =
      (signup envAllOk dbEmpty
        "Asha" "asha@example.com" "pw1" "123" "ATHLETE" "" "athlete_aa11").2 :=
  signup_duplicate_email envAllOk envAllOk dbEmpty
    "Asha" "asha@example.com" "pw1" "123" "ATHLETE" "" "athlete_aa11"
    "Bela" "pw2" "456" "COACH" "" "coach_bb22"
    (by decide) (by decide) (by decide) (by decide)

/-! ## C4: connection status reporting -/

/-- C4. Under the stated data-model invariants (at most one Connection
document per unordered pair, and every stored status non-empty),
`status(u1, u2)` reports `connected: true` iff an accepted Connection
exists between the pair in either direction; with no Connection between
the pair it returns `connected: false` and status `"none"`; otherwise
it reports the raw stored status. -/
theorem connectionStatus_spec (db : DB) (u1 u2 : String)
    (hone : (db.connections.filter (connMatches u1 u2)).length ≤ 1)
    (hstat : ∀ c ∈ db.connections, c.status ≠ "") :
    ((connectionStatus db u1 u2).connected = true ↔
      ∃ c ∈ db.connections, connMatches u1 u2 c = true ∧ c.status = "accepted") ∧
    ((∀ c ∈ db.connections, connMatches u1 u2 c = false) →
      connectionStatus db u1 u2 =
        { connected := false, status := "none", requestId := none }) ∧
    ((∃ c ∈ db.connections, connMatches u1 u2 c = true) →
      ∃ c ∈ db.connections, connMatches u1 u2 c = true ∧
        (connectionStatus db u1 u2).status = c.status ∧
        (connectionStatus db u1 u2).connected = decide (c.status = "accepted")) := by
  cases hf : db.connections.find? (connMatches u1 u2) with
  | none =>
    have hno := List.find?_eq_none.mp hf
    refine ⟨?_, ?_, ?_⟩
    · simp only [connectionStatus, hf]
      constructor
      · intro h
        exact absurd h (by decide)
      · rintro ⟨c, hc_mem, hc_match, -⟩
        exact absurd hc_match (hno c hc_mem)
    · intro _
      simp only [connectionStatus, hf]
    · rintro ⟨c, hc_mem, hc_match⟩
      exact absurd hc_match (hno c hc_mem)
  | some c =>
    have hc_mem := List.mem_of_find?_eq_some hf
    have hc_match := List.find?_some hf
    have hc_ne := hstat c hc_mem
    refine ⟨?_, ?_, ?_⟩
    · simp only [connectionStatus, hf]
      constructor
      · intro h
        exact ⟨c, hc_mem, hc_match, of_decide_eq_true h⟩
      · rintro ⟨c2, hc2_mem, hc2_match, hc2_acc⟩
        have : c = c2 :=
          eq_of_mem_of_length_le_one hone
            (List.mem_filter.mpr ⟨hc_mem, hc_match⟩)
            (List.mem_filter.mpr ⟨hc2_mem, hc2_match⟩)
        rw [this]
        exact decide_eq_true hc2_acc
    · intro hall
      exact absurd hc_match (by simp [hall c hc_mem])
    · intro _
      refine ⟨c, hc_mem, hc_match, ?_, ?_⟩
      · simp only [connectionStatus, hf, if_neg hc_ne]
      · simp only [connectionStatus, hf]

/-- A concrete connections state: one accepted connection. -/
def dbConnAccepted : DB :=
  { connections :=
      [{ id := "64aaaaaaaaaaaaaaaaaaaaaa", fromUserId := "u1", toUserId := "u2",
         status := "accepted" }] }

/-- C4 witness: the accepted pair reports connected in both query
directions of the stored document. -/
theorem connectionStatus_spec_witness :
    ((connectionStatus dbConnAccepted "u2" "u1").connected = true ∧
     (connectionStatus dbConnAccepted "u2" "u1").status = "accepted" ∧
     (connectionStatus dbConnAccepted "u3" "u1") =
       { connected := false, status := "none", requestId := none }) ∧
    ((connectionStatus dbConnAccepted "u2" "u1").connected = true ↔
      ∃ c ∈ dbConnAccepted.connections,
        connMatches "u2" "u1" c = true ∧ c.status = "accepted") :=
  ⟨by decide, (connectionStatus_spec dbConnAccepted "u2" "u1" (by decide) (by decide)).1⟩

/-! ## C5: sendRequest blocks any existing pair and preserves the
pair-uniqueness invariant -/

/-- C5. `sendRequest(from, to)` fails exactly when some Connection
already exists between the unordered pair in either direction, whatever
its status; otherwise it appends exactly one new pending Connection.
Sequential execution therefore preserves the at-most-one-per-pair
invariant. -/
theorem sendRequest_spec (db : DB) (fromU toU newId : String) :
    ((sendRequest db fromU toU newId).1.success = false ↔
      ∃ c ∈ db.connections, connMatches fromU toU c = true) ∧
    ((∃ c ∈ db.connections, connMatches fromU toU c = true) →
      (sendRequest db fromU toU newId).1.status = 400 ∧
      (sendRequest db fromU toU newId).2 = db) ∧
    ((∀ c ∈ db.connections, connMatches fromU toU c = false) →
      (sendRequest db fromU toU newId).1.success = true ∧
      (sendRequest db fromU toU newId).2.connections =
        db.connections ++
          [{ id := newId, fromUserId := fromU, toUserId := toU, status := "pending",
             acceptedAt := none, rejectedAt := none }]) ∧
    (atMostOnePerPair db.connections →
      atMostOnePerPair (sendRequest db fromU toU newId).2.connections) := by
  cases hf : db.connections.find? (connMatches fromU toU) with
  | some c =>
    have hc_mem := List.mem_of_find?_eq_some hf
    have hc_match := List.find?_some hf
    refine ⟨?_, ?_, ?_, ?_⟩
    · simp only [sendRequest, hf]
      constructor
      · intro _
        exact ⟨c, hc_mem, hc_match⟩
      · intro _
        trivial
    · intro _
      simp only [sendRequest, hf]
      exact ⟨by trivial, by trivial⟩
    · intro hall
      exact absurd hc_match (by simp [hall c hc_mem])
    · intro hinv
      simp only [sendRequest, hf]
      exact hinv
  | none =>
    have hno := List.find?_eq_none.mp hf
    refine ⟨?_, ?_, ?_, ?_⟩
    · simp only [sendRequest, hf]
      constructor
      · intro h
        exact absurd h (by decide)
      · rintro ⟨c, hc_mem, hc_match⟩
        exact absurd hc_match (hno c hc_mem)
    · rintro ⟨c, hc_mem, hc_match⟩
      exact absurd hc_match (hno c hc_mem)
    · intro _
      simp only [sendRequest, hf]
      exact ⟨by trivial, by trivial⟩
    · intro hinv u1 u2
      simp only [sendRequest, hf, List.filter_append]
      cases hm : connMatches u1 u2
          { id := newId, fromUserId := fromU, toUserId := toU, status := "pending",
            acceptedAt := none, rejectedAt := none } with
      | false =>
        simp only [List.filter_cons, List.filter_nil, hm, Bool.false_eq_true,
          if_false, List.append_nil]
        exact hinv u1 u2
      | true =>
        have hcases := of_decide_eq_true hm
        have hempty : db.connections.filter (connMatches u1 u2) = [] := by
          rcases hcases with ⟨h1, h2⟩ | ⟨h1, h2⟩
          · rw [List.filter_eq_nil_iff]
            intro c hc
            rw [← h1, ← h2]
            exact hno c hc
          · rw [List.filter_eq_nil_iff]
            intro c hc
            rw [← h1, ← h2, connMatches_symm]
            exact hno c hc
        rw [hempty]
        simp [hm]

/-- C5 witness: with an accepted connection stored as (u1, u2), a new
request in the reverse direction (u2, u1) is refused and the state kept;
on the empty state the same request succeeds and appends one pending
document. -/
theorem sendRequest_spec_witness :
    ((sendRequest dbConnAccepted "u2" "u1" "64bbbbbbbbbbbbbbbbbbbbbb").1.success = false ∧
     (sendRequest dbConnAccepted "u2" "u1" "64bbbbbbbbbbbbbbbbbbbbbb").2 = dbConnAccepted ∧
     (sendRequest dbEmpty "u2" "u1" "64bbbbbbbbbbbbbbbbbbbbbb").1.success = true) ∧
    ((sendRequest dbConnAccepted "u2" "u1" "64bbbbbbbbbbbbbbbbbbbbbb").1.success = false ↔
      ∃ c ∈ dbConnAccepted.connections, connMatches "u2" "u1" c = true) :=
  ⟨by decide, (sendRequest_spec dbConnAccepted "u2" "u1" "64bbbbbbbbbbbbbbbbbbbbbb").1⟩

/-! ## C3: two-step, non-atomic session delete -/

/-- `deleteOne` reports zero deletions exactly when nothing matched. -/
theorem deleteOneSessionById_count_zero (l : List SessionDoc) (sid : String) :
    (deleteOneSessionById l sid).2 = 0 ↔ ∀ s ∈ l, s.id ≠ sid := by
  induction l with
  | nil => simp [deleteOneSessionById]
  | cons s rest ih =>
    by_cases h : s.id = sid
    · simp [deleteOneSessionById, h]
    · simp [deleteOneSessionById, h, ih]

/-- `deleteOne` with a match removes exactly one document. -/
theorem deleteOneSessionById_length (l : List SessionDoc) (sid : String)
    (h : ∃ s ∈ l, s.id = sid) :
    (deleteOneSessionById l sid).1.length + 1 = l.length := by
  induction l with
  | nil =>
    obtain ⟨s, hs, -⟩ := h
    cases hs
  | cons s rest ih =>
    by_cases hh : s.id = sid
    · simp [deleteOneSessionById, hh]
    · obtain ⟨t, ht_mem, ht⟩ := h
      rcases List.mem_cons.mp ht_mem with h1 | h1
      · exact absurd (h1 ▸ ht) hh
      · have := ih ⟨t, h1, ht⟩
        simp only [deleteOneSessionById, if_neg hh, List.length_cons]
        omega

/-- C3. `delete(sessionId)`: a malformed id yields a 400 validation
error and changes nothing; on a well-formed id the handler first
removes every RepImage with that session id (reporting their count),
then removes the session; if no session matched it responds 404 with
the sessions collection untouched, but the rep images have already been
removed and stay removed — the two-step delete is not atomic. -/
theorem deleteSession_spec (db : DB) (sid : String) :
    (isValidObjectId sid = false →
      (deleteSession db sid).1.status = 400 ∧
      (deleteSession db sid).1.success = false ∧
      (deleteSession db sid).2 = db) ∧
    (isValidObjectId sid = true →
      (deleteSession db sid).2.reps = db.reps.filter (fun r => r.sessionId ≠ sid) ∧
      (∀ r ∈ (deleteSession db sid).2.reps, r.sessionId ≠ sid) ∧
      ((∃ s ∈ db.sessions, s.id = sid) →
        (deleteSession db sid).1.status = 200 ∧
        (deleteSession db sid).1.success = true ∧
        (deleteSession db sid).1.deletedRepImages =
          some (db.reps.countP (fun r => r.sessionId = sid)) ∧
        (deleteSession db sid).2.sessions.length + 1 = db.sessions.length) ∧
      ((∀ s ∈ db.sessions, s.id ≠ sid) →
        (deleteSession db sid).1.status = 404 ∧
        (deleteSession db sid).1.success = false ∧
        (deleteSession db sid).1.error = some "Workout session not found" ∧
        (deleteSession db sid).2.sessions = db.sessions)) := by
  constructor
  · intro hv
    refine ⟨?_, ?_, ?_⟩ <;> simp [deleteSession, hv]
  · intro hv
    have hv' : ¬(isValidObjectId sid = false) := by simp [hv]
    have hreps : (deleteSession db sid).2.reps
        = db.reps.filter (fun r => r.sessionId ≠ sid) := by
      simp only [deleteSession, if_neg hv']
      split <;> rfl
    have hreps2 : ∀ r ∈ (deleteSession db sid).2.reps, r.sessionId ≠ sid := by
      rw [hreps]
      intro r hr
      exact of_decide_eq_true (List.mem_filter.mp hr).2
    refine ⟨hreps, hreps2, ?_, ?_⟩
    · rintro ⟨s, hs_mem, hs_id⟩
      have hdel_ne : ¬((deleteOneSessionById db.sessions sid).2 = 0) := by
        rw [deleteOneSessionById_count_zero]
        push_neg
        exact ⟨s, hs_mem, hs_id⟩
      have hlen := deleteOneSessionById_length db.sessions sid ⟨s, hs_mem, hs_id⟩
      refine ⟨?_, ?_, ?_, ?_⟩
      · simp [deleteSession, hv', hdel_ne]
      · simp [deleteSession, hv', hdel_ne]
      · simp [deleteSession, hv', hdel_ne]
      · simp only [deleteSession, if_neg hv', hdel_ne, if_false]
        simpa using hlen
    · intro hall
      have hdel0 : (deleteOneSessionById db.sessions sid).2 = 0 :=
        (deleteOneSessionById_count_zero db.sessions sid).mpr hall
      refine ⟨?_, ?_, ?_, ?_⟩ <;> simp [deleteSession, hv', hdel0]

/-- A valid ObjectId string used by the concrete states below. -/
def sid24 : String := "65a1b2c3d4e5f60718293a4b"

/-- A state holding one session with two rep images, plus a stray rep
image referencing a different session id. -/
def dbDelete : DB :=
  { sessions :=
      [{ id := sid24, athleteName := "Asha", athleteId := "athlete_1",
         athleteProfilePic := "pic1", activityName := "Squats", totalReps := 10,
         accuracy := 90, formScore := "Excellent", timestamp := 1,
         pdfUrl := none, videoUrl := none }],
    reps :=
      [{ repNumber := 1, imageUrl := "u1", correct := true, sessionId := sid24 },
       { repNumber := 2, imageUrl := "u2", correct := false, sessionId := sid24 },
       { repNumber := 1, imageUrl := "u3", correct := true,
         sessionId := "65ffffffffffffffffffffff" }] }

/-- C3 witness: concrete malformed-id, found, and not-found deletes. -/
theorem deleteSession_spec_witness :
    ((deleteSession dbDelete "not-an-id").1.status = 400 ∧
     (deleteSession dbDelete "not-an-id").2 = dbDelete ∧
     (deleteSession dbDelete sid24).1.status = 200 ∧
     (deleteSession dbDelete sid24).1.deletedRepImages = some 2 ∧
     (deleteSession dbDelete "65eeeeeeeeeeeeeeeeeeeeee").1.status = 404 ∧
     (deleteSession dbDelete "65eeeeeeeeeeeeeeeeeeeeee").2.reps = dbDelete.reps) ∧
    ((isValidObjectId sid24 = true →
      (deleteSession dbDelete sid24).2.reps
        = dbDelete.reps.filter (fun r => r.sessionId ≠ sid24) ∧
      (∀ r ∈ (deleteSession dbDelete sid24).2.reps, r.sessionId ≠ sid24) ∧
      ((∃ s ∈ dbDelete.sessions, s.id = sid24) →
        (deleteSession dbDelete sid24).1.status = 200 ∧
        (deleteSession dbDelete sid24).1.success = true ∧
        (deleteSession dbDelete sid24).1.deletedRepImages =
          some (dbDelete.reps.countP (fun r => r.sessionId = sid24)) ∧
        (deleteSession dbDelete sid24).2.sessions.length + 1
          = dbDelete.sessions.length) ∧
      ((∀ s ∈ dbDelete.sessions, s.id ≠ sid24) →
        (deleteSession dbDelete sid24).1.status = 404 ∧
        (deleteSession dbDelete sid24).1.success = false ∧
        (deleteSession dbDelete sid24).1.error = some "Workout session not found" ∧
        (deleteSession dbDelete sid24).2.sessions = dbDelete.sessions))) :=
  ⟨by decide, (deleteSession_spec dbDelete sid24).2⟩

/-! ## C8: per-user workout stats -/

/-- Folding addition over a list equals the accumulator plus the sum of
the mapped values (the shape of the `reduce` in the stats route). -/
theorem foldl_add_map {α : Type} (l : List α) (f : α → Nat) (a : Nat) :
    l.foldl (fun acc x => acc + f x) a = a + (l.map f).sum := by
  induction l generalizing a with
  | nil => simp
  | cons x xs ih => simp [ih, Nat.add_assoc]

/-- The accumulator is a lower bound of a `max` fold. -/
theorem init_le_foldl_max (l : List Nat) (a : Nat) : a ≤ l.foldl max a := by
  induction l generalizing a with
  | nil => exact Nat.le_refl a
  | cons x xs ih => exact le_trans (Nat.le_max_left a x) (ih (max a x))

/-- Every member is a lower bound of a `max` fold (the shape of
`Math.max(...values, 0)`). -/
theorem mem_le_foldl_max (l : List Nat) (a : Nat) :
    ∀ b ∈ l, b ≤ l.foldl max a := by
  induction l generalizing a with
  | nil => intro b hb; cases hb
  | cons x xs ih =>
    intro b hb
    rcases List.mem_cons.mp hb with h | h
    · rw [h]
      exact le_trans (Nat.le_max_right a x) (init_le_foldl_max xs (max a x))
    · exact ih (max a x) b h

/-- A `max` fold returns its accumulator or one of the members. -/
theorem foldl_max_mem (l : List Nat) (a : Nat) :
    l.foldl max a = a ∨ l.foldl max a ∈ l := by
  induction l generalizing a with
  | nil => exact Or.inl rfl
  | cons x xs ih =>
    rcases ih (max a x) with h | h
    · rcases max_choice a x with hm | hm
      · exact Or.inl (by rw [List.foldl_cons, h, hm])
      · exact Or.inr (by rw [List.foldl_cons, h, hm]; exact List.mem_cons_self x xs)
    · exact Or.inr (List.mem_cons_of_mem x h)

/-- `mathRoundDiv` is exactly `Math.round` of the rational quotient:
`⌊num/den + 1/2⌋` for a positive denominator. -/
theorem mathRoundDiv_eq_floor (num den : Nat) (h : 0 < den) :
    ((mathRoundDiv num den : Nat) : ℤ) = ⌊(num : ℚ) / den + 1 / 2⌋ := by
  have hd : (den : ℚ) ≠ 0 := by
    exact_mod_cast Nat.pos_iff_ne_zero.mp h
  have key : (num : ℚ) / den + 1 / 2 = ((2 * num + den : ℕ) : ℚ) / ((2 * den : ℕ) : ℚ) := by
    push_cast
    field_simp
    ring
  rw [key, Rat.floor_natCast_div_natCast]
  rfl

/-- C8. `statsForUser(userId)` over the set `S` of sessions whose
`athleteId` matches: `totalWorkouts = |S|`; `bestScore` is the maximum
of `totalReps` over `S` (0 when `S` is empty); `avgAccuracy` is the
rounded mean accuracy and `formQuality` the rounded percentage of
sessions with `formScore = "Excellent"` (both 0 when `S` is empty);
`consistency` is 85 when `|S| ≥ 5`, else `|S| * 15`. -/
theorem statsForUser_spec (db : DB) (u : String) :
    (statsForUser db u).totalWorkouts
      = (db.sessions.filter (fun s => s.athleteId = u)).length ∧
    (∀ s ∈ db.sessions.filter (fun s => s.athleteId = u),
      s.totalReps ≤ (statsForUser db u).bestScore) ∧
    ((statsForUser db u).bestScore = 0 ∨
      ∃ s ∈ db.sessions.filter (fun s => s.athleteId = u),
        s.totalReps = (statsForUser db u).bestScore) ∧
    (db.sessions.filter (fun s => s.athleteId = u) = [] →
      statsForUser db u = ⟨0, 0, 0, 0, 0⟩) ∧
    (db.sessions.filter (fun s => s.athleteId = u) ≠ [] →
      ((statsForUser db u).avgAccuracy : ℤ)
        = ⌊(((db.sessions.filter (fun s => s.athleteId = u)).map
              (fun s => s.accuracy)).sum : ℚ)
            / (db.sessions.filter (fun s => s.athleteId = u)).length + 1 / 2⌋) ∧
    (db.sessions.filter (fun s => s.athleteId = u) ≠ [] →
      ((statsForUser db u).formQuality : ℤ)
        = ⌊((db.sessions.filter (fun s => s.athleteId = u)).countP
              (fun s => s.formScore = "Excellent") : ℚ)
            / (db.sessions.filter (fun s => s.athleteId = u)).length * 100 + 1 / 2⌋) ∧
    (statsForUser db u).consistency
      = (if 5 ≤ (db.sessions.filter (fun s => s.athleteId = u)).length then 85
         else (db.sessions.filter (fun s => s.athleteId = u)).length * 15) := by
  refine ⟨rfl, ?_, ?_, ?_, ?_, ?_, rfl⟩
  · intro s hs
    exact mem_le_foldl_max _ 0 s.totalReps
      (List.mem_map.mpr ⟨s, hs, rfl⟩)
  · rcases foldl_max_mem
        ((db.sessions.filter (fun s => s.athleteId = u)).map (fun s => s.totalReps)) 0
      with h | h
    · exact Or.inl h
    · obtain ⟨s, hs_mem, hs_eq⟩ := List.mem_map.mp h
      exact Or.inr ⟨s, hs_mem, hs_eq⟩
  · intro h
    simp [statsForUser, h]
  · intro hne
    have hlen : 0 < (db.sessions.filter (fun s => s.athleteId = u)).length :=
      List.length_pos.mpr hne
    have hsum := foldl_add_map (db.sessions.filter (fun s => s.athleteId = u))
      (fun s => s.accuracy) 0
    simp only [statsForUser, if_pos hlen]
    rw [mathRoundDiv_eq_floor _ _ hlen, hsum, Nat.zero_add]
    congr 2
    rw [Nat.cast_list_sum, List.map_map]
    rfl
  · intro hne
    have hlen : 0 < (db.sessions.filter (fun s => s.athleteId = u)).length :=
      List.length_pos.mpr hne
    have hlenq : ((db.sessions.filter (fun s => s.athleteId = u)).length : ℚ) ≠ 0 := by
      exact_mod_cast Nat.pos_iff_ne_zero.mp hlen
    simp only [statsForUser, if_pos hlen]
    rw [mathRoundDiv_eq_floor _ _ hlen,
      List.countP_eq_length_filter]
    congr 1
    push_cast
    field_simp
    ring


/-- A state with two sessions for one athlete id. -/
def dbStats : DB :=
  { sessions :=
      [{ id := "65a000000000000000000001", athleteName := "Asha",
         athleteId := "athlete_1", athleteProfilePic := "pic1",
         activityName := "Squats", totalReps := 10, accuracy := 80,
         formScore := "Excellent", timestamp := 10, pdfUrl := none, videoUrl := none },
       { id := "65a000000000000000000002", athleteName := "Asha",
         athleteId := "athlete_1", athleteProfilePic := "pic1",
         activityName := "Pushups", totalReps := 12, accuracy := 90,
         formScore := "Good", timestamp := 20, pdfUrl := none, videoUrl := none }] }

/-- C8 witness: concrete stats (mean of 80 and 90 rounds to 85; one
Excellent session out of two gives 50 percent; 2 sessions give
consistency 30). -/
theorem statsForUser_spec_witness :
    statsForUser dbStats "athlete_1"
      = { totalWorkouts := 2, bestScore := 12, avgAccuracy := 85,
          formQuality := 50, consistency := 30 } ∧
    ((statsForUser dbStats "athlete_1").totalWorkouts
      = (dbStats.sessions.filter (fun s => s.athleteId = "athlete_1")).length ∧
    (∀ s ∈ dbStats.sessions.filter (fun s => s.athleteId = "athlete_1"),
      s.totalReps ≤ (statsForUser dbStats "athlete_1").bestScore) ∧
    ((statsForUser dbStats "athlete_1").bestScore = 0 ∨
      ∃ s ∈ dbStats.sessions.filter (fun s => s.athleteId = "athlete_1"),
        s.totalReps = (statsForUser dbStats "athlete_1").bestScore) ∧
    (dbStats.sessions.filter (fun s => s.athleteId = "athlete_1") = [] →
      statsForUser dbStats "athlete_1" = ⟨0, 0, 0, 0, 0⟩) ∧
    (dbStats.sessions.filter (fun s => s.athleteId = "athlete_1") ≠ [] →
      ((statsForUser dbStats "athlete_1").avgAccuracy : ℤ)
        = ⌊(((dbStats.sessions.filter (fun s => s.athleteId = "athlete_1")).map
              (fun s => s.accuracy)).sum : ℚ)
            / (dbStats.sessions.filter (fun s => s.athleteId = "athlete_1")).length
            + 1 / 2⌋) ∧
    (dbStats.sessions.filter (fun s => s.athleteId = "athlete_1") ≠ [] →
      ((statsForUser dbStats "athlete_1").formQuality : ℤ)
        = ⌊((dbStats.sessions.filter (fun s => s.athleteId = "athlete_1")).countP
              (fun s => s.formScore = "Excellent") : ℚ)
            / (dbStats.sessions.filter (fun s => s.athleteId = "athlete_1")).length
            * 100 + 1 / 2⌋) ∧
    (statsForUser dbStats "athlete_1").consistency
      = (if 5 ≤ (dbStats.sessions.filter (fun s => s.athleteId = "athlete_1")).length
         then 85
         else (dbStats.sessions.filter (fun s => s.athleteId = "athlete_1")).length * 15)) :=
  ⟨by decide, statsForUser_spec dbStats "athlete_1"⟩

/-! ## C2: ingest then repsForSession -/

/-- The unordered bulk insert appends all documents when they share one
session id with pairwise distinct rep numbers and nothing already in
the collection carries that session id and one of the rep numbers. -/
theorem insertMany_eq_append (docs : List RepDoc) (acc : List RepDoc) (sid : String)
    (hdocs : ∀ d ∈ docs, d.sessionId = sid)
    (hdist : (docs.map RepDoc.repNumber).Pairwise (· ≠ ·))
    (hacc : ∀ r ∈ acc, r.sessionId = sid → r.repNumber ∉ docs.map RepDoc.repNumber) :
    insertManyRepsUnordered acc docs = acc ++ docs := by
  induction docs generalizing acc with
  | nil => simp [insertManyRepsUnordered]
  | cons d ds ih =>
    have hd_sid : d.sessionId = sid := hdocs d (List.mem_cons_self _ _)
    have hdist_head : ∀ b ∈ ds.map RepDoc.repNumber, d.repNumber ≠ b := by
      rw [List.map_cons, List.pairwise_cons] at hdist
      exact hdist.1
    have hdist_tail : (ds.map RepDoc.repNumber).Pairwise (· ≠ ·) := by
      rw [List.map_cons, List.pairwise_cons] at hdist
      exact hdist.2
    have hclash : (acc.any fun r =>
        decide (r.sessionId = d.sessionId ∧ r.repNumber = d.repNumber)) = false := by
      rw [List.any_eq_false]
      intro r hr
      simp only [decide_eq_true_eq, not_and]
      intro hsid hnum
      have hmem : r.repNumber ∈ (d :: ds).map RepDoc.repNumber := by
        rw [List.map_cons, hnum]
        exact List.mem_cons_self _ _
      exact hacc r hr (hsid.trans hd_sid) hmem
    have step : insertManyRepsUnordered acc (d :: ds)
        = insertManyRepsUnordered (acc ++ [d]) ds := by
      simp only [insertManyRepsUnordered, List.foldl_cons, hclash,
        Bool.false_eq_true, if_false]
    have hacc2 : ∀ r ∈ acc ++ [d], r.sessionId = sid →
        r.repNumber ∉ ds.map RepDoc.repNumber := by
      intro r hr hsid
      rcases List.mem_append.mp hr with h | h
      · intro hmem
        exact hacc r h hsid (by rw [List.map_cons]; exact List.mem_cons_of_mem _ hmem)
      · rw [List.mem_singleton.mp h]
        intro hmem
        exact hdist_head _ hmem rfl
    rw [step, ih (acc ++ [d]) (fun e he => hdocs e (List.mem_cons_of_mem _ he))
      hdist_tail hacc2, List.append_assoc, List.singleton_append]

/-- C2. For a session ingested with N rep images carrying pairwise
distinct rep numbers (and a fresh generated session id),
`repsForSession` on the returned session id yields exactly N documents,
sorted ascending by `repNumber`. -/
theorem repsForSession_after_ingest (env : MediaEnv) (db : DB) (newId : String)
    (meta : SessionMeta) (repImages : List RepInput)
    (hfresh : ∀ r ∈ db.reps, r.sessionId ≠ newId)
    (hdist : (repImages.map RepInput.repNumber).Pairwise (· ≠ ·)) :
    (repsForSession (ingest env db newId meta repImages).2
        (ingest env db newId meta repImages).1.sessionId).length = repImages.length ∧
    (repsForSession (ingest env db newId meta repImages).2
        (ingest env db newId meta repImages).1.sessionId).Pairwise
      (fun a b => a.repNumber ≤ b.repNumber) := by
  have hsid : (ingest env db newId meta repImages).1.sessionId = newId := rfl
  have htrans : ∀ (a b c : RepDoc),
      repNumberLe a b = true → repNumberLe b c = true → repNumberLe a c = true := by
    intro a b c hab hbc
    simp only [repNumberLe, decide_eq_true_eq] at *
    omega
  have htotal : ∀ (a b : RepDoc), (repNumberLe a b || repNumberLe b a) = true := by
    intro a b
    simp only [repNumberLe, Bool.or_eq_true, decide_eq_true_eq]
    exact Nat.le_total _ _
  by_cases hemp : repImages.isEmpty = true
  · have hnil : repImages = [] := List.isEmpty_iff.mp hemp
    have hreps : (ingest env db newId meta repImages).2.reps = db.reps := by
      simp only [ingest, if_pos hemp]
    have hfilter : (ingest env db newId meta repImages).2.reps.filter
        (fun r => r.sessionId = newId) = [] := by
      rw [hreps, List.filter_eq_nil_iff]
      intro r hr
      simp only [decide_eq_true_eq]
      exact hfresh r hr
    rw [hsid]
    unfold repsForSession
    rw [hfilter, List.mergeSort_nil, hnil]
    exact ⟨rfl, List.Pairwise.nil⟩
  · have hdocs_sid : ∀ d ∈ repImages.map (mkRepDocFor env newId), d.sessionId = newId := by
      intro d hd
      obtain ⟨rep, -, hrep⟩ := List.mem_map.mp hd
      rw [← hrep]
      rfl
    have hmapnum : (repImages.map (mkRepDocFor env newId)).map RepDoc.repNumber
        = repImages.map RepInput.repNumber := by
      rw [List.map_map]
      rfl
    have hdist2 : ((repImages.map (mkRepDocFor env newId)).map RepDoc.repNumber).Pairwise
        (· ≠ ·) := by
      rw [hmapnum]
      exact hdist
    have hacc : ∀ r ∈ db.reps.filter (fun r => r.sessionId ≠ newId),
        r.sessionId = newId →
        r.repNumber ∉ (repImages.map (mkRepDocFor env newId)).map RepDoc.repNumber := by
      intro r hr hsid2
      exact absurd hsid2 (of_decide_eq_true (List.mem_filter.mp hr).2)
    have hreps : (ingest env db newId meta repImages).2.reps
        = db.reps.filter (fun r => r.sessionId ≠ newId)
          ++ repImages.map (mkRepDocFor env newId) := by
      simp only [ingest, if_neg hemp]
      exact insertMany_eq_append _ _ newId hdocs_sid hdist2 hacc
    have hfilter : (ingest env db newId meta repImages).2.reps.filter
        (fun r => r.sessionId = newId) = repImages.map (mkRepDocFor env newId) := by
      rw [hreps, List.filter_append]
      have h1 : (db.reps.filter (fun r => r.sessionId ≠ newId)).filter
          (fun r => r.sessionId = newId) = [] := by
        rw [List.filter_eq_nil_iff]
        intro r hr
        simp only [decide_eq_true_eq]
        exact of_decide_eq_true (List.mem_filter.mp hr).2
      have h2 : (repImages.map (mkRepDocFor env newId)).filter
          (fun r => r.sessionId = newId) = repImages.map (mkRepDocFor env newId) := by
        rw [List.filter_eq_self]
        intro d hd
        exact decide_eq_true (hdocs_sid d hd)
      rw [h1, h2, List.nil_append]
    rw [hsid]
    unfold repsForSession
    rw [hfilter]
    constructor
    · rw [(List.mergeSort_perm _ repNumberLe).length_eq, List.length_map]
    · exact (List.sorted_mergeSort htrans htotal _).imp of_decide_eq_true

/-- C2 witness: three rep images numbered 2, 1, 3 come back as three
documents sorted 1, 2, 3 (against a failing media host, exercising the
inline fallback as well). -/
theorem repsForSession_after_ingest_witness :
    (repsForSession (ingest envAllFail dbEmpty sid24 metaSample repsSample).2
        (ingest envAllFail dbEmpty sid24 metaSample repsSample).1.sessionId).length
      = repsSample.length ∧
    (repsForSession (ingest envAllFail dbEmpty sid24 metaSample repsSample).2
        (ingest envAllFail dbEmpty sid24 metaSample repsSample).1.sessionId).Pairwise
      (fun a b => a.repNumber ≤ b.repNumber) :=
  repsForSession_after_ingest envAllFail dbEmpty sid24 metaSample repsSample
    (by decide) (by decide)

/-! ## C7: the all-athletes aggregation -/

/-- The per-group facts claimed for the `$group` stage, relative to the
scanned sessions `ss`: the count is the number of sessions of that
athlete, `lastWorkout` is an attained upper bound of their timestamps,
and the picture is the first-seen one. -/
def groupOk (ss : List SessionDoc) (g : AthleteGroup) : Prop :=
  g.workoutCount = (ss.filter (fun s => s.athleteName = g.name)).length ∧
  (∃ s ∈ ss, s.athleteName = g.name ∧ s.timestamp = g.lastWorkout) ∧
  (∀ s ∈ ss, s.athleteName = g.name → s.timestamp ≤ g.lastWorkout) ∧
  (∃ s, ss.find? (fun s => s.athleteName = g.name) = some s ∧
        g.athleteProfilePic = s.athleteProfilePic)

/-- Invariant of the grouping fold: every accumulated group satisfies
`groupOk` for the scanned prefix, every scanned session has a group,
and group names are pairwise distinct. -/
def accOk (ss : List SessionDoc) (acc : List AthleteGroup) : Prop :=
  (∀ g ∈ acc, groupOk ss g) ∧
  (∀ s ∈ ss, ∃ g ∈ acc, g.name = s.athleteName) ∧
  acc.Pairwise (fun a b => a.name ≠ b.name)

/-- When no accumulated group carries the session's athlete name, the
fold step opens a new group at the end. -/
theorem addSession_no_group (acc : List AthleteGroup) (s : SessionDoc)
    (h : ∀ g ∈ acc, g.name ≠ s.athleteName) :
    addSessionToGroups acc s = acc ++
      [{ name := s.athleteName, workoutCount := 1, lastWorkout := s.timestamp,
         athleteProfilePic := s.athleteProfilePic }] := by
  induction acc with
  | nil => rfl
  | cons g gs ih =>
    have hg := h g (List.mem_cons_self _ _)
    simp only [addSessionToGroups, if_neg hg, List.cons_append]
    rw [ih (fun x hx => h x (List.mem_cons_of_mem _ hx))]

/-- The fold step updates the first (and, with distinct names, only)
group carrying the session's athlete name. -/
theorem addSession_update (pre : List AthleteGroup) (g0 : AthleteGroup)
    (post : List AthleteGroup) (s : SessionDoc)
    (hname : g0.name = s.athleteName)
    (hpre : ∀ g ∈ pre, g.name ≠ s.athleteName) :
    addSessionToGroups (pre ++ g0 :: post) s
      = pre ++ (bumpGroup g0 s :: post) := by
  induction pre with
  | nil =>
    simp only [List.nil_append, addSessionToGroups, if_pos hname]
  | cons g gs ih =>
    have hg := hpre g (List.mem_cons_self _ _)
    simp only [List.cons_append, addSessionToGroups, if_neg hg, List.append_eq]
    rw [ih (fun x hx => hpre x (List.mem_cons_of_mem _ hx))]

/-- A group whose athlete is not the scanned session keeps its facts. -/
theorem groupOk_extend_other (ss : List SessionDoc) (s : SessionDoc)
    (g : AthleteGroup) (hok : groupOk ss g) (hne : g.name ≠ s.athleteName) :
    groupOk (ss ++ [s]) g := by
  obtain ⟨hcount, ⟨t, ht_mem, ht_name, ht_ts⟩, hub, ⟨f, hf, hpic⟩⟩ := hok
  have hne' : ¬(s.athleteName = g.name) := fun h => hne h.symm
  refine ⟨?_, ⟨t, List.mem_append_left _ ht_mem, ht_name, ht_ts⟩, ?_, ⟨f, ?_, hpic⟩⟩
  · rw [List.filter_append]
    have hnil : [s].filter (fun x => x.athleteName = g.name) = [] := by
      simp [hne']
    rw [hnil, List.append_nil]
    exact hcount
  · intro t' ht' hname'
    rcases List.mem_append.mp ht' with h | h
    · exact hub t' h hname'
    · rw [List.mem_singleton.mp h] at hname'
      exact absurd hname' hne'
  · rw [List.find?_append, hf]
    rfl

/-- The updated group keeps its facts after its session is appended to
the scan. -/
theorem groupOk_update (ss : List SessionDoc) (s : SessionDoc) (g0 : AthleteGroup)
    (hok : groupOk ss g0) (hname : g0.name = s.athleteName) :
    groupOk (ss ++ [s]) (bumpGroup g0 s) := by
  obtain ⟨hcount, ⟨t, ht_mem, ht_name, ht_ts⟩, hub, ⟨f, hf, hpic⟩⟩ := hok
  have hcond : s.athleteName = g0.name := hname.symm
  unfold groupOk
  dsimp only [bumpGroup]
  refine ⟨?_, ?_, ?_, ⟨f, ?_, hpic⟩⟩
  · show g0.workoutCount + 1 = _
    rw [List.filter_append]
    have hone : [s].filter (fun x => x.athleteName = g0.name) = [s] := by
      simp [hcond]
    rw [hone, List.length_append, hcount]
    rfl
  · rcases Nat.le_total s.timestamp g0.lastWorkout with h | h
    · refine ⟨t, List.mem_append_left _ ht_mem, ht_name, ?_⟩
      show t.timestamp = max g0.lastWorkout s.timestamp
      rw [Nat.max_eq_left h]
      exact ht_ts
    · refine ⟨s, List.mem_append_right _ (List.mem_singleton_self _), hcond, ?_⟩
      show s.timestamp = max g0.lastWorkout s.timestamp
      rw [Nat.max_eq_right h]
  · intro t' ht' hname'
    rcases List.mem_append.mp ht' with h | h
    · exact le_trans (hub t' h hname') (Nat.le_max_left _ _)
    · rw [List.mem_singleton.mp h]
      exact Nat.le_max_right _ _
  · rw [List.find?_append, hf]
    rfl

/-- One fold step preserves the grouping invariant. -/
theorem accOk_step (ss : List SessionDoc) (acc : List AthleteGroup) (s : SessionDoc)
    (h : accOk ss acc) : accOk (ss ++ [s]) (addSessionToGroups acc s) := by
  obtain ⟨hgs, hcover, hdistinct⟩ := h
  by_cases hex : ∃ g ∈ acc, g.name = s.athleteName
  · obtain ⟨g0, hg0_mem, hg0_name⟩ := hex
    obtain ⟨pre, post, rfl⟩ := List.append_of_mem hg0_mem
    have hpairs := List.pairwise_append.mp hdistinct
    have hpre : ∀ g ∈ pre, g.name ≠ s.athleteName := by
      intro g hg heq
      exact hpairs.2.2 g hg g0 (List.mem_cons_self _ _) (heq.trans hg0_name.symm)
    rw [addSession_update pre g0 post s hg0_name hpre]
    refine ⟨?_, ?_, ?_⟩
    · intro g hg
      rcases List.mem_append.mp hg with h | h
      · exact groupOk_extend_other ss s g
          (hgs g (List.mem_append_left _ h)) (hpre g h)
      · rcases List.mem_cons.mp h with h | h
        · rw [h]
          exact groupOk_update ss s g0
            (hgs g0 (List.mem_append_right _ (List.mem_cons_self _ _))) hg0_name
        · have hne : g.name ≠ s.athleteName := by
            intro heq
            have hg0g := (List.pairwise_cons.mp hpairs.2.1).1 g h
            exact hg0g (hg0_name.trans heq.symm)
          exact groupOk_extend_other ss s g
            (hgs g (List.mem_append_right _ (List.mem_cons_of_mem _ h))) hne
    · intro t ht
      rcases List.mem_append.mp ht with h | h
      · obtain ⟨g, hg_mem, hg_name⟩ := hcover t h
        rcases List.mem_append.mp hg_mem with h2 | h2
        · exact ⟨g, List.mem_append_left _ h2, hg_name⟩
        · rcases List.mem_cons.mp h2 with h2 | h2
          · refine ⟨_, List.mem_append_right _ (List.mem_cons_self _ _), ?_⟩
            show g0.name = t.athleteName
            rw [← h2]
            exact hg_name
          · exact ⟨g, List.mem_append_right _ (List.mem_cons_of_mem _ h2), hg_name⟩
      · rw [List.mem_singleton.mp h]
        refine ⟨_, List.mem_append_right _ (List.mem_cons_self _ _), ?_⟩
        show g0.name = s.athleteName
        exact hg0_name
    · rw [List.pairwise_append]
      refine ⟨hpairs.1, ?_, ?_⟩
      · exact List.pairwise_cons.mpr (List.pairwise_cons.mp hpairs.2.1)
      · intro a ha b hb
        rcases List.mem_cons.mp hb with h2 | h2
        · rw [h2]
          show a.name ≠ g0.name
          exact hpairs.2.2 a ha g0 (List.mem_cons_self _ _)
        · exact hpairs.2.2 a ha b (List.mem_cons_of_mem _ h2)
  · push_neg at hex
    rw [addSession_no_group acc s hex]
    refine ⟨?_, ?_, ?_⟩
    · intro g hg
      rcases List.mem_append.mp hg with h | h
      · exact groupOk_extend_other ss s g (hgs g h) (hex g h)
      · rw [List.mem_singleton.mp h]
        have hnoss : ∀ t ∈ ss, ¬(t.athleteName = s.athleteName) := by
          intro t ht heq
          obtain ⟨g2, hg2_mem, hg2_name⟩ := hcover t ht
          exact hex g2 hg2_mem (hg2_name.trans heq)
        have hfnil : ss.filter (fun x => x.athleteName = s.athleteName) = [] := by
          rw [List.filter_eq_nil_iff]
          intro t ht
          simp only [decide_eq_true_eq]
          exact hnoss t ht
        have hfnone : ss.find? (fun x => x.athleteName = s.athleteName) = none := by
          rw [List.find?_eq_none]
          intro t ht
          simp only [decide_eq_true_eq]
          exact hnoss t ht
        refine ⟨?_, ⟨s, List.mem_append_right _ (List.mem_singleton_self _), rfl, rfl⟩,
          ?_, ⟨s, ?_, rfl⟩⟩
        · show 1 = _
          rw [List.filter_append, hfnil, List.nil_append]
          simp
        · intro t ht hname
          rcases List.mem_append.mp ht with h2 | h2
          · exact absurd hname (hnoss t h2)
          · rw [List.mem_singleton.mp h2]
        · rw [List.find?_append, hfnone]
          simp
    · intro t ht
      rcases List.mem_append.mp ht with h | h
      · obtain ⟨g, hg_mem, hg_name⟩ := hcover t h
        exact ⟨g, List.mem_append_left _ hg_mem, hg_name⟩
      · rw [List.mem_singleton.mp h]
        exact ⟨_, List.mem_append_right _ (List.mem_singleton_self _), rfl⟩
    · rw [List.pairwise_append]
      refine ⟨hdistinct, List.pairwise_singleton _ _, ?_⟩
      intro a ha b hb
      rw [List.mem_singleton.mp hb]
      exact hex a ha

/-- Folding the remaining sessions extends the invariant over them. -/
theorem foldl_accOk (rest : List SessionDoc) (ss : List SessionDoc)
    (acc : List AthleteGroup) (h : accOk ss acc) :
    accOk (ss ++ rest) (rest.foldl addSessionToGroups acc) := by
  induction rest generalizing ss acc with
  | nil => simpa using h
  | cons r rs ih =>
    have h3 := ih (ss ++ [r]) (addSessionToGroups acc r) (accOk_step ss acc r h)
    rw [List.append_assoc, List.singleton_append] at h3
    simpa only [List.foldl_cons] using h3

/-- The grouping invariant holds of the full `$group` output. -/
theorem groups_accOk (db : DB) :
    accOk db.sessions (db.sessions.foldl addSessionToGroups []) := by
  have h0 : accOk [] ([] : List AthleteGroup) := by
    refine ⟨?_, ?_, List.Pairwise.nil⟩
    · intro g hg
      cases hg
    · intro s hs
      cases hs
  have h := foldl_accOk db.sessions [] [] h0
  simpa using h

/-- C7. `listAthletes` groups all sessions by athlete name: every
returned athlete has `workoutCount` equal to the number of sessions
with that name, `lastWorkout` an attained maximum of their session
timestamps, and `athleteProfilePic` taken from the first-seen session
of the group; every stored session is represented; and the list is
sorted by `lastWorkout` descending. -/
theorem listAthletes_spec (db : DB) :
    (∀ g ∈ listAthletes db,
      g.workoutCount = (db.sessions.filter (fun s => s.athleteName = g.name)).length ∧
      (∃ s ∈ db.sessions, s.athleteName = g.name ∧ s.timestamp = g.lastWorkout) ∧
      (∀ s ∈ db.sessions, s.athleteName = g.name → s.timestamp ≤ g.lastWorkout) ∧
      (∃ s, db.sessions.find? (fun s => s.athleteName = g.name) = some s ∧
            g.athleteProfilePic = s.athleteProfilePic)) ∧
    (∀ s ∈ db.sessions, ∃ g ∈ listAthletes db, g.name = s.athleteName) ∧
    (listAthletes db).Pairwise (fun a b => b.lastWorkout ≤ a.lastWorkout) := by
  obtain ⟨hgs, hcover, -⟩ := groups_accOk db
  have hperm := List.mergeSort_perm (db.sessions.foldl addSessionToGroups []) groupLe
  have htrans : ∀ (a b c : AthleteGroup),
      groupLe a b = true → groupLe b c = true → groupLe a c = true := by
    intro a b c hab hbc
    simp only [groupLe, decide_eq_true_eq] at *
    omega
  have htotal : ∀ (a b : AthleteGroup), (groupLe a b || groupLe b a) = true := by
    intro a b
    simp only [groupLe, Bool.or_eq_true, decide_eq_true_eq]
    exact Nat.le_total _ _
  refine ⟨?_, ?_, ?_⟩
  · intro g hg
    exact hgs g (hperm.mem_iff.mp hg)
  · intro s hs
    obtain ⟨g, hg_mem, hg_name⟩ := hcover s hs
    exact ⟨g, hperm.mem_iff.mpr hg_mem, hg_name⟩
  · exact (List.sorted_mergeSort htrans htotal _).imp of_decide_eq_true

/-- A state with three sessions over two athletes, newest first. -/
def dbGroups : DB :=
  { sessions :=
      [{ id := "65a000000000000000000011", athleteName := "Asha",
         athleteId := "athlete_1", athleteProfilePic := "picA1",
         activityName := "Squats", totalReps := 10, accuracy := 80,
         formScore := "Excellent", timestamp := 30, pdfUrl := none, videoUrl := none },
       { id := "65a000000000000000000012", athleteName := "Bela",
         athleteId := "athlete_2", athleteProfilePic := "picB1",
         activityName := "Pushups", totalReps := 8, accuracy := 70,
         formScore := "Good", timestamp := 50, pdfUrl := none, videoUrl := none },
       { id := "65a000000000000000000013", athleteName := "Asha",
         athleteId := "athlete_1", athleteProfilePic := "picA2",
         activityName := "Situps", totalReps := 15, accuracy := 95,
         formScore := "Excellent", timestamp := 40, pdfUrl := none, videoUrl := none }] }

/-- C7 witness: the aggregation facts at a concrete two-athlete state. -/
theorem listAthletes_spec_witness :
    (∀ g ∈ listAthletes dbGroups,
      g.workoutCount
        = (dbGroups.sessions.filter (fun s => s.athleteName = g.name)).length ∧
      (∃ s ∈ dbGroups.sessions, s.athleteName = g.name ∧ s.timestamp = g.lastWorkout) ∧
      (∀ s ∈ dbGroups.sessions, s.athleteName = g.name → s.timestamp ≤ g.lastWorkout) ∧
      (∃ s, dbGroups.sessions.find? (fun s => s.athleteName = g.name) = some s ∧
            g.athleteProfilePic = s.athleteProfilePic)) ∧
    (∀ s ∈ dbGroups.sessions, ∃ g ∈ listAthletes dbGroups, g.name = s.athleteName) ∧
    (listAthletes dbGroups).Pairwise (fun a b => b.lastWorkout ≤ a.lastWorkout) :=
  listAthletes_spec dbGroups

end TalentTrack
